import Mathlib

/-!
Shallow embedding of the `snafu-derive` attribute-schema compiler
(`src/snafu-derive/src/lib.rs` and `src/snafu-derive/src/parse.rs`).

Modelling conventions:
* Host-language token streams (`proc_macro2::TokenStream`, `syn::Field` used
  as an error span, ...) are opaque in the source; they are modelled by an
  abstract location identifier `Loc := Nat`.  `syn::Type`, `syn::Expr` and
  the boxed `UserInput` blobs are likewise opaque and modelled as `Nat`.
* `syn::Error::new_spanned(tokens, description)` becomes a `SynError`
  carrying the location and the rendered description string; the message
  formatting (`Display`/`ErrorForLocation` impls) is reproduced verbatim.
* Attributes are modelled after `attributes_from_syn` has run: a field or
  container carries the `Vec<SnafuAttribute>` list that the parser produced.
  The token-level argument grammar of `source`/`backtrace`/`context` from
  `parse.rs` is modelled separately (`SourceArg`, `ContextArg`, ...), with
  one constructor per comma-separated argument form; syn's
  "unexpected token" check for unconsumed tokens inside a parenthesized
  argument list is modelled as the requirement that the argument-form list
  be exhausted by the parse.
* `&mut SyntaxErrors` threading becomes explicit state passing: functions
  take the accumulated `List SynError` and return the grown list, and the
  `MultiSynResult` return value becomes `Except (List SynError) _`.
-/

namespace Snafu

/-- Abstract source location (stands for a `TokenStream`/span). -/
abbrev Loc := Nat

/-- Opaque `syn::Type`. -/
abbrev Ty := Nat

/-- Opaque `syn::Expr`. -/
abbrev ExprRef := Nat

/-- Opaque `UserInput` (`Box<dyn quote::ToTokens>`). -/
abbrev UserInput := Nat

/-- `enum ErrorLocation` from `lib.rs`. -/
inductive ErrorLocation where
  | onEnum
  | onVariant
  | inVariant
  | onField
  | onNamedStruct
  | inNamedStruct
  | onTupleStruct
deriving DecidableEq, Repr

/-- The `fmt::Display` impl for `ErrorLocation`. -/
def ErrorLocation.display : ErrorLocation → String
  | .onEnum => "on an enum"
  | .onVariant => "on an enum variant"
  | .inVariant => "within an enum variant"
  | .onField => "on a field"
  | .onNamedStruct => "on a named struct"
  | .inNamedStruct => "within a named struct"
  | .onTupleStruct => "on a tuple struct"

/-- A `syn::Error`: a source location plus the rendered message. -/
structure SynError where
  loc : Loc
  msg : String
deriving DecidableEq, Repr

/-- `OnlyValidOn::for_location` message rendering. -/
def onlyValidOnMsg (attr validOn : String) (location : ErrorLocation) : String :=
  "`" ++ attr ++ "` attribute is only valid on " ++ validOn ++ ", not " ++ location.display

/-- `WrongField::for_location` message rendering (location-independent). -/
def wrongFieldMsg (attr validField : String) : String :=
  "`" ++ attr ++ "` attribute is only valid on a field named \"" ++ validField ++
    "\", not on other fields"

/-- `IncompatibleAttributes::for_location` message rendering. -/
def incompatibleAttributesMsg (attrs : List String) (location : ErrorLocation) : String :=
  let attrsString := String.intercalate ", " (attrs.map (fun a => "`" ++ a ++ "`"))
  "Incompatible attributes [" ++ attrsString ++ "] specified " ++ location.display

/-- `DuplicateAttribute`'s `fmt::Display` message rendering. -/
def duplicateAttributeMsg (attr : String) (location : ErrorLocation) : String :=
  "Multiple `" ++ attr ++ "` attributes are not supported " ++ location.display

/-- `SOURCE_BOOL_FROM_INCOMPATIBLE` rendered at a scope. -/
def sourceBoolFromIncompatibleMsg (location : ErrorLocation) : String :=
  incompatibleAttributesMsg ["source(false)", "source(from)"] location

/-- Span-level error text used when a variant has positional fields. -/
def onlyStructLikeMsg : String := "Only struct-like and unit enum variants are supported"

/-- Error text for a field without a name. -/
def mustHaveNamedFieldMsg : String := "Must have a named field"

/-- Error text of the `context` + `whatever` exclusion. -/
def contextWhateverMsg : String := "Cannot be both a `context` and `whatever` error"

/-- Error text of the backtrace-field / delegating-source-field conflict. -/
def backtraceConflictMsg : String :=
  "Cannot have `backtrace` field and `backtrace` attribute on a source field in the same variant"

/-- Error text for a non-message context field on a `Whatever` selector. -/
def whateverContextFieldMsg : String := "Whatever selectors must not have context fields"

/-- Error text for a `Whatever` selector without a message field. -/
def whateverNoMessageMsg : String := "Whatever selectors must have a message field"

/-- Error text for a context field on a `context(false)` selector. -/
def noContextContextFieldMsg : String :=
  "Context selectors without context must not have context fields"

/-- Error text for a `context(false)` selector without a source field. -/
def noContextNoSourceMsg : String :=
  "Context selectors without context must have a source field"

/-- `AtMostOne<T, U>` from `lib.rs`; the token type `U` is always a
location in this embedding.  `values` is the `VecDeque` (push-back order),
`errors` the internal `SyntaxErrors`. -/
structure AtMostOne (T : Type) where
  name : String
  location : ErrorLocation
  values : List (T × Loc)
  errors : List SynError
deriving DecidableEq, Repr

/-- `AtMostOne::new`. -/
def AtMostOne.new (T : Type) (name : String) (location : ErrorLocation) : AtMostOne T :=
  ⟨name, location, [], []⟩

/-- `AtMostOne::add`: every occurrence after the first appends a
`DuplicateAttribute` diagnostic at the occurrence's tokens; the value queue
retains every entry. -/
def AtMostOne.add {T : Type} (a : AtMostOne T) (item : T) (tokens : Loc) : AtMostOne T :=
  { a with
    errors :=
      a.errors ++
        (if a.values.isEmpty then []
         else [⟨tokens, duplicateAttributeMsg a.name a.location⟩]),
    values := a.values ++ [(item, tokens)] }

/-- `AtMostOne::finish_with_location`. -/
def AtMostOne.finish_with_location {T : Type} (a : AtMostOne T) :
    Option (T × Loc) × List SynError :=
  (a.values.head?, a.errors)

/-- `AtMostOne::finish`. -/
def AtMostOne.finish {T : Type} (a : AtMostOne T) : Option T × List SynError :=
  ((a.values.head?).map Prod.fst, a.errors)

/-- A sequence of `add` calls on a ledger. -/
def AtMostOne.addAll {T : Type} (a : AtMostOne T) (ps : List (T × Loc)) : AtMostOne T :=
  ps.foldl (fun acc p => acc.add p.1 p.2) a

/-- `enum SuffixKind` from `lib.rs`. -/
inductive SuffixKind where
  | default
  | none
  | some (ident : String)
deriving DecidableEq, Repr

/-- `enum ModuleName` from `lib.rs`. -/
inductive ModuleName where
  | default
  | custom (ident : String)
deriving DecidableEq, Repr

/-- `enum Context` from `lib.rs` (the payload of a parsed `context`
attribute). -/
inductive ContextAttr where
  | flag (b : Bool)
  | suffix (k : SuffixKind)
deriving DecidableEq, Repr

/-- `Context::into_enabled` from `lib.rs`. -/
def ContextAttr.into_enabled : ContextAttr → Bool × SuffixKind
  | .flag b => (b, SuffixKind.none)
  | .suffix k => (true, k)

/-- `enum Source` from `lib.rs` (one argument form of a `source`
attribute).  `fromArg` is the source's `From` variant (`from` is a Lean
keyword). -/
inductive SourceComp where
  | flag (b : Bool)
  | fromArg (ty : Ty) (expr : ExprRef)
deriving DecidableEq, Repr

/-- `enum SnafuAttribute` from `lib.rs`: one SNAFU-specific attribute with
the token-stream location it was found at. -/
inductive SnafuAttribute where
  | display (tokens : Loc) (d : UserInput)
  | visibility (tokens : Loc) (v : UserInput)
  | source (tokens : Loc) (ss : List SourceComp)
  | backtrace (tokens : Loc) (b : Bool)
  | context (tokens : Loc) (c : ContextAttr)
  | whatever (tokens : Loc)
  | crateRoot (tokens : Loc) (root : UserInput)
  | docComment (tokens : Loc) (line : String)
  | module (tokens : Loc) (m : ModuleName)
deriving DecidableEq, Repr

/-- Whether an attribute is an ordinary documentation line (not a snafu
attribute). -/
def SnafuAttribute.isDoc : SnafuAttribute → Bool
  | .docComment _ _ => true
  | _ => false

/-- `struct Field` from `lib.rs` (`original` is the field's own syntax,
kept only as an error location). -/
structure Field where
  name : String
  ty : Ty
  original : Loc
deriving DecidableEq, Repr

/-- `enum Transformation` from `lib.rs`.  `identity` is the source's
`Transformation::None` variant. -/
inductive Transformation where
  | identity (ty : Ty)
  | transform (ty : Ty) (expr : ExprRef)
deriving DecidableEq, Repr

/-- `struct SourceField` from `lib.rs`. -/
structure SourceField where
  name : String
  transformation : Transformation
  backtrace_delegate : Bool
deriving DecidableEq, Repr

/-- `enum ContextSelectorKind` from `lib.rs`. -/
inductive ContextSelectorKind where
  | context (suffix : SuffixKind) (source_field : Option SourceField) (user_fields : List Field)
  | whatever (source_field : Option SourceField) (message_field : Field)
  | noContext (source_field : SourceField)
deriving DecidableEq, Repr

/-- `ContextSelectorKind::user_fields`. -/
def ContextSelectorKind.user_fields : ContextSelectorKind → List Field
  | .context _ _ fs => fs
  | .whatever _ _ => []
  | .noContext _ => []

/-- `ContextSelectorKind::source_field`. -/
def ContextSelectorKind.source_field : ContextSelectorKind → Option SourceField
  | .context _ sf _ => sf
  | .whatever sf _ => sf
  | .noContext sf => Option.some sf

/-- `ContextSelectorKind::message_field`. -/
def ContextSelectorKind.message_field : ContextSelectorKind → Option Field
  | .context _ _ _ => Option.none
  | .whatever _ m => Option.some m
  | .noContext _ => Option.none

/-- The suffix policy of a `Context` selector kind, if it is one. -/
def ContextSelectorKind.suffixOf : ContextSelectorKind → Option SuffixKind
  | .context s _ _ => Option.some s
  | _ => Option.none

/-- `struct FieldContainer` from `lib.rs`. -/
structure FieldContainer where
  name : String
  backtrace_field : Option Field
  selector_kind : ContextSelectorKind
  display_format : Option UserInput
  doc_comment : String
  visibility : Option UserInput
  module : Option ModuleName
deriving DecidableEq, Repr

/-- A `syn::Field` as `field_container` consumes it: optional name, type,
its (already parsed) snafu attributes, and its location/span. -/
structure SynField where
  ident : Option String
  ty : Ty
  attrs : List SnafuAttribute
  loc : Loc
deriving DecidableEq, Repr

/-- The `Field` value built from a named `syn::Field`. -/
def SynField.toField (f : SynField) : Field :=
  ⟨f.ident.getD "", f.ty, f.loc⟩

end Snafu

namespace Snafu

/-- `OnlyValidOn`/`WrongField` constants from `lib.rs`, rendered. -/
def attrDisplayMsg (location : ErrorLocation) : String :=
  onlyValidOnMsg "display" "enum variants or structs with named fields" location

/-- `ATTR_SOURCE` rendered. -/
def attrSourceMsg (location : ErrorLocation) : String :=
  onlyValidOnMsg "source" "enum variant or struct fields with a name" location

/-- `ATTR_SOURCE_BOOL` rendered. -/
def attrSourceBoolMsg (location : ErrorLocation) : String :=
  onlyValidOnMsg "source(bool)" "enum variant or struct fields with a name" location

/-- `ATTR_SOURCE_FALSE` rendered (location-independent). -/
def attrSourceFalseMsg : String := wrongFieldMsg "source(false)" "source"

/-- `ATTR_SOURCE_FROM` rendered. -/
def attrSourceFromMsg (location : ErrorLocation) : String :=
  onlyValidOnMsg "source(from)" "enum variant or struct fields with a name" location

/-- `ATTR_BACKTRACE` rendered. -/
def attrBacktraceMsg (location : ErrorLocation) : String :=
  onlyValidOnMsg "backtrace" "enum variant or struct fields with a name" location

/-- `ATTR_BACKTRACE_FALSE` rendered (location-independent). -/
def attrBacktraceFalseMsg : String := wrongFieldMsg "backtrace(false)" "backtrace"

/-- `ATTR_VISIBILITY` rendered. -/
def attrVisibilityMsg (location : ErrorLocation) : String :=
  onlyValidOnMsg "visibility" "an enum, enum variants, or a struct with named fields" location

/-- `ATTR_MODULE` rendered. -/
def attrModuleMsg (location : ErrorLocation) : String :=
  onlyValidOnMsg "module" "an enum or structs with named fields" location

/-- `ATTR_CONTEXT` rendered. -/
def attrContextMsg (location : ErrorLocation) : String :=
  onlyValidOnMsg "context" "enum variants or structs with named fields" location

/-- `ATTR_WHATEVER` rendered. -/
def attrWhateverMsg (location : ErrorLocation) : String :=
  onlyValidOnMsg "whatever" "enum variants or structs with named fields" location

/-- `ATTR_CRATE_ROOT` rendered. -/
def attrCrateRootMsg (location : ErrorLocation) : String :=
  onlyValidOnMsg "crate_root" "an enum or a struct" location

/-- State of the container-scope attribute loop at the top of
`field_container`: the five `AtMostOne` ledgers, the doc-comment
accumulator, and the shared `SyntaxErrors` list. -/
structure ContainerAttrState where
  modules : AtMostOne ModuleName
  display_formats : AtMostOne UserInput
  visibilities : AtMostOne UserInput
  contexts : AtMostOne ContextAttr
  whatevers : AtMostOne Unit
  doc_comment : String
  reached_end_of_doc_comment : Bool
  errors : List SynError
deriving DecidableEq, Repr

/-- Initial `ContainerAttrState` (fresh ledgers named as in
`field_container`, doc comment empty, errors carried over). -/
def ContainerAttrState.init (outerLoc : ErrorLocation) (errors : List SynError) :
    ContainerAttrState :=
  ⟨AtMostOne.new ModuleName "module" outerLoc,
   AtMostOne.new UserInput "display" outerLoc,
   AtMostOne.new UserInput "visibility" outerLoc,
   AtMostOne.new ContextAttr "context" outerLoc,
   AtMostOne.new Unit "whatever" outerLoc,
   "", false, errors⟩

/-- One step of the container-scope attribute loop of `field_container`. -/
def processContainerAttr (outerLoc : ErrorLocation) (ca : ContainerAttrState)
    (a : SnafuAttribute) : ContainerAttrState :=
  match a with
  | .module tokens n => { ca with modules := ca.modules.add n tokens }
  | .display tokens d => { ca with display_formats := ca.display_formats.add d tokens }
  | .visibility tokens v => { ca with visibilities := ca.visibilities.add v tokens }
  | .context tokens c => { ca with contexts := ca.contexts.add c tokens }
  | .whatever tokens => { ca with whatevers := ca.whatevers.add () tokens }
  | .source tokens _ => { ca with errors := ca.errors ++ [⟨tokens, attrSourceMsg outerLoc⟩] }
  | .backtrace tokens _ =>
      { ca with errors := ca.errors ++ [⟨tokens, attrBacktraceMsg outerLoc⟩] }
  | .crateRoot tokens _ =>
      { ca with errors := ca.errors ++ [⟨tokens, attrCrateRootMsg outerLoc⟩] }
  | .docComment _ line =>
      if ca.reached_end_of_doc_comment then ca
      else
        let trimmed := line.trim
        if trimmed.isEmpty then { ca with reached_end_of_doc_comment := true }
        else
          { ca with
            doc_comment :=
              if ca.doc_comment.isEmpty then trimmed else ca.doc_comment ++ " " ++ trimmed }

/-- State of the per-field attribute loop of `field_container`: the two
field-level `AtMostOne` ledgers, the opt-out markers, and the shared
`SyntaxErrors` list. -/
structure FieldAttrState where
  source_attrs : AtMostOne (Option (Ty × ExprRef))
  backtrace_attrs : AtMostOne Unit
  source_opt_out : Bool
  backtrace_opt_out : Bool
  errors : List SynError
deriving DecidableEq, Repr

/-- Initial `FieldAttrState` for one field. -/
def FieldAttrState.init (errors : List SynError) : FieldAttrState :=
  ⟨AtMostOne.new (Option (Ty × ExprRef)) "source" ErrorLocation.onField,
   AtMostOne.new Unit "backtrace" ErrorLocation.onField,
   false, false, errors⟩

/-- One step of the `for s in ss` loop over the argument forms of a
`source` attribute on a field. -/
def processSourceComp (name : String) (tokens : Loc) (fs : FieldAttrState)
    (s : SourceComp) : FieldAttrState :=
  match s with
  | .flag v =>
      let seenSourceFrom := fs.source_attrs.values.any (fun p => p.1.isSome)
      let fs :=
        if !v && seenSourceFrom then
          { fs with
            errors :=
              fs.errors ++ [⟨tokens, sourceBoolFromIncompatibleMsg ErrorLocation.onField⟩] }
        else fs
      if v then { fs with source_attrs := fs.source_attrs.add Option.none tokens }
      else if name = "source" then { fs with source_opt_out := true }
      else { fs with errors := fs.errors ++ [⟨tokens, attrSourceFalseMsg⟩] }
  | .fromArg t e =>
      let fs :=
        if fs.source_opt_out then
          { fs with
            errors :=
              fs.errors ++ [⟨tokens, sourceBoolFromIncompatibleMsg ErrorLocation.onField⟩] }
        else fs
      { fs with source_attrs := fs.source_attrs.add (Option.some (t, e)) tokens }

/-- One step of the per-field attribute loop of `field_container`. -/
def processFieldAttr (name : String) (fs : FieldAttrState) (a : SnafuAttribute) :
    FieldAttrState :=
  match a with
  | .source tokens ss => ss.foldl (processSourceComp name tokens) fs
  | .backtrace tokens v =>
      if v then { fs with backtrace_attrs := fs.backtrace_attrs.add () tokens }
      else if name = "backtrace" then { fs with backtrace_opt_out := true }
      else { fs with errors := fs.errors ++ [⟨tokens, attrBacktraceFalseMsg⟩] }
  | .module tokens _ =>
      { fs with errors := fs.errors ++ [⟨tokens, attrModuleMsg ErrorLocation.onField⟩] }
  | .visibility tokens _ =>
      { fs with errors := fs.errors ++ [⟨tokens, attrVisibilityMsg ErrorLocation.onField⟩] }
  | .display tokens _ =>
      { fs with errors := fs.errors ++ [⟨tokens, attrDisplayMsg ErrorLocation.onField⟩] }
  | .context tokens _ =>
      { fs with errors := fs.errors ++ [⟨tokens, attrContextMsg ErrorLocation.onField⟩] }
  | .whatever tokens =>
      { fs with errors := fs.errors ++ [⟨tokens, attrWhateverMsg ErrorLocation.onField⟩] }
  | .crateRoot tokens _ =>
      { fs with errors := fs.errors ++ [⟨tokens, attrCrateRootMsg ErrorLocation.onField⟩] }
  | .docComment _ _ => fs

/-- State of the field-classification loop of `field_container`: the
user-field list, the container-level `source`/`backtrace` ledgers, and the
shared `SyntaxErrors` list. -/
structure FieldsState where
  user_fields : List Field
  source_fields : AtMostOne SourceField
  backtrace_fields : AtMostOne Field
  errors : List SynError
deriving DecidableEq, Repr

/-- Initial `FieldsState`. -/
def FieldsState.init (innerLoc : ErrorLocation) (errors : List SynError) : FieldsState :=
  ⟨[], AtMostOne.new SourceField "source" innerLoc, AtMostOne.new Field "backtrace" innerLoc,
   errors⟩

/-- One iteration of the field loop of `field_container`: parse the
field's own attributes, resolve the source/backtrace role using the
name-based defaults and opt-outs, and classify the field.  The second
component is `some errs` when the loop body hit the fatal
`Must have a named field` early return. -/
def processField (st : FieldsState) (f : SynField) :
    FieldsState × Option (List SynError) :=
  match f.ident with
  | Option.none => (st, Option.some [⟨f.loc, mustHaveNamedFieldMsg⟩])
  | Option.some name =>
    let field : Field := ⟨name, f.ty, f.loc⟩
    let fa := f.attrs.foldl (processFieldAttr name) (FieldAttrState.init st.errors)
    let finSource := fa.source_attrs.finish_with_location
    let errors1 := fa.errors ++ finSource.2
    let finBacktrace := fa.backtrace_attrs.finish_with_location
    let errors2 := errors1 ++ finBacktrace.2
    let source_attr :=
      match finSource.1 with
      | Option.some x => Option.some x
      | Option.none =>
          if name = "source" && !fa.source_opt_out then Option.some (Option.none, f.loc)
          else Option.none
    let backtrace_attr :=
      match finBacktrace.1 with
      | Option.some x => Option.some x
      | Option.none =>
          if name = "backtrace" && !fa.backtrace_opt_out then Option.some ((), f.loc)
          else Option.none
    match source_attr with
    | Option.some (maybeTransformation, location) =>
        let transformation :=
          match maybeTransformation with
          | Option.some (t, e) => Transformation.transform t e
          | Option.none => Transformation.identity f.ty
        ({ st with
            source_fields :=
              st.source_fields.add ⟨name, transformation, backtrace_attr.isSome⟩ location,
            errors := errors2 },
         Option.none)
    | Option.none =>
        match backtrace_attr with
        | Option.some (_, location) =>
            ({ st with backtrace_fields := st.backtrace_fields.add field location,
                       errors := errors2 },
             Option.none)
        | Option.none =>
            ({ st with user_fields := st.user_fields ++ [field], errors := errors2 },
             Option.none)

/-- The field loop of `field_container`; stops at the first fatal
early return, mirroring `?` inside the Rust `for` loop. -/
def processFields (st : FieldsState) : List SynField → FieldsState × Option (List SynError)
  | [] => (st, Option.none)
  | f :: rest =>
    match processField st f with
    | (st1, Option.none) => processFields st1 rest
    | (st1, Option.some e) => (st1, Option.some e)

/-- One step of the message-collection loop in the `Whatever` branch of
`field_container`: `message`-named fields go to the `messages` ledger,
every other user field records a diagnostic in the shared error list. -/
def whateverMessageStep (acc : AtMostOne Field × List SynError) (f : Field) :
    AtMostOne Field × List SynError :=
  if f.name = "message" then (acc.1.add f f.original, acc.2)
  else (acc.1, acc.2 ++ [⟨f.original, whateverContextFieldMsg⟩])

/-- Everything in `field_container` after the field loop: finish the
ledgers, run the backtrace-conflict check, and resolve the selector kind
from the `context`/`whatever` attributes. -/
def field_container_resolve (name : String) (variantSpan : Loc)
    (outerLoc : ErrorLocation) (ca : ContainerAttrState) (fs : FieldsState) :
    List SynError × Except (List SynError) FieldContainer :=
  let finSrc := fs.source_fields.finish_with_location
  let source := finSrc.1
  let errors := fs.errors ++ finSrc.2
  let finBt := fs.backtrace_fields.finish_with_location
  let backtrace := finBt.1
  let errors := errors ++ finBt.2
  let errors :=
    match source, backtrace with
    | Option.some s, Option.some b =>
        if s.1.backtrace_delegate then
          errors ++ [⟨s.2, backtraceConflictMsg⟩, ⟨b.2, backtraceConflictMsg⟩]
        else errors
    | _, _ => errors
  let finModule := ca.modules.finish
  let module := finModule.1
  let errors := errors ++ finModule.2
  let finDisplay := ca.display_formats.finish
  let display_format := finDisplay.1
  let errors := errors ++ finDisplay.2
  let finVis := ca.visibilities.finish
  let visibility := finVis.1
  let errors := errors ++ finVis.2
  let finCtx := ca.contexts.finish_with_location
  let is_context := finCtx.1.map (fun p => (p.1.into_enabled, p.2))
  let errors := errors ++ finCtx.2
  let finWhatever := ca.whatevers.finish_with_location
  let is_whatever := finWhatever.1
  let errors := errors ++ finWhatever.2
  let source_field := source.map Prod.fst
  match is_context, is_whatever with
  | Option.some ((true, _), cTT), Option.some ((), oTT) =>
      (errors, Except.error [⟨cTT, contextWhateverMsg⟩, ⟨oTT, contextWhateverMsg⟩])
  | Option.some ((true, suffix), _), Option.none =>
      (errors,
       Except.ok
         ⟨name, backtrace.map Prod.fst,
          ContextSelectorKind.context suffix source_field fs.user_fields, display_format,
          ca.doc_comment, visibility, module⟩)
  | Option.none, Option.none =>
      (errors,
       Except.ok
         ⟨name, backtrace.map Prod.fst,
          ContextSelectorKind.context SuffixKind.default source_field fs.user_fields,
          display_format, ca.doc_comment, visibility, module⟩)
  | Option.some ((false, _), _), Option.some _ | Option.none, Option.some _ =>
      let step :=
        fs.user_fields.foldl whateverMessageStep (AtMostOne.new Field "message" outerLoc, errors)
      let finMsg := step.1.finish
      let errors := step.2 ++ finMsg.2
      match finMsg.1 with
      | Option.none => (errors, Except.error [⟨variantSpan, whateverNoMessageMsg⟩])
      | Option.some message_field =>
          (errors,
           Except.ok
             ⟨name, backtrace.map Prod.fst,
              ContextSelectorKind.whatever source_field message_field, display_format,
              ca.doc_comment, visibility, module⟩)
  | Option.some ((false, _), _), Option.none =>
      let errors :=
        errors ++ fs.user_fields.map (fun f => (⟨f.original, noContextContextFieldMsg⟩ : SynError))
      match source_field with
      | Option.none => (errors, Except.error [⟨variantSpan, noContextNoSourceMsg⟩])
      | Option.some sf =>
          (errors,
           Except.ok
             ⟨name, backtrace.map Prod.fst, ContextSelectorKind.noContext sf, display_format,
              ca.doc_comment, visibility, module⟩)

/-- `field_container` from `lib.rs`.  The first component of the result is
the final state of the shared `SyntaxErrors` list (the `&mut SyntaxErrors`
argument); the second is the function's `MultiSynResult<FieldContainer>`. -/
def field_container (name : String) (variantSpan : Loc) (attrs : List SnafuAttribute)
    (fields : List SynField) (errors0 : List SynError)
    (outerLoc innerLoc : ErrorLocation) :
    List SynError × Except (List SynError) FieldContainer :=
  let ca := attrs.foldl (processContainerAttr outerLoc) (ContainerAttrState.init outerLoc errors0)
  match processFields (FieldsState.init innerLoc ca.errors) fields with
  | (fs, Option.some e) => (fs.errors, Except.error e)
  | (fs, Option.none) => field_container_resolve name variantSpan outerLoc ca fs

end Snafu

namespace Snafu

/-- `private_visibility()` modelled as an opaque token code. -/
def private_visibility : UserInput := 0

/-- `pub_visibility()` modelled as an opaque token code. -/
def pub_visibility : UserInput := 1

/-- `default_crate_root()` (`::snafu`) modelled as an opaque token code. -/
def default_crate_root : UserInput := 2

/-- The shape of a `syn` enum variant's field list. -/
inductive VariantFields where
  | named (fields : List SynField)
  | unnamed (span : Loc)
  | unit
deriving DecidableEq, Repr

/-- A `syn` enum variant as `parse_snafu_enum` consumes it (attributes
already parsed). -/
structure SynVariant where
  ident : String
  span : Loc
  fields : VariantFields
  attrs : List SnafuAttribute
deriving DecidableEq, Repr

/-- `struct EnumInfo` from `lib.rs` (generics kept opaque). -/
structure EnumInfo where
  crate_root : UserInput
  name : String
  generics : Nat
  variants : List FieldContainer
  default_visibility : UserInput
  module : Option ModuleName
deriving DecidableEq, Repr

/-- State of the enum-scope attribute loop of `parse_snafu_enum`. -/
structure EnumAttrState where
  modules : AtMostOne ModuleName
  default_visibilities : AtMostOne UserInput
  crate_roots : AtMostOne UserInput
  errors : List SynError
deriving DecidableEq, Repr

/-- Initial `EnumAttrState`. -/
def EnumAttrState.init : EnumAttrState :=
  ⟨AtMostOne.new ModuleName "module" ErrorLocation.onEnum,
   AtMostOne.new UserInput "visibility" ErrorLocation.onEnum,
   AtMostOne.new UserInput "crate_root" ErrorLocation.onEnum,
   []⟩

/-- One step of the enum-scope attribute loop of `parse_snafu_enum`. -/
def processEnumAttr (st : EnumAttrState) (a : SnafuAttribute) : EnumAttrState :=
  match a with
  | .visibility tokens v =>
      { st with default_visibilities := st.default_visibilities.add v tokens }
  | .display tokens _ =>
      { st with errors := st.errors ++ [⟨tokens, attrDisplayMsg ErrorLocation.onEnum⟩] }
  | .source tokens ss =>
      ss.foldl
        (fun st s =>
          match s with
          | SourceComp.flag _ =>
              { st with
                errors := st.errors ++ [⟨tokens, attrSourceBoolMsg ErrorLocation.onEnum⟩] }
          | SourceComp.fromArg _ _ =>
              { st with
                errors := st.errors ++ [⟨tokens, attrSourceFromMsg ErrorLocation.onEnum⟩] })
        st
  | .crateRoot tokens root => { st with crate_roots := st.crate_roots.add root tokens }
  | .module tokens m => { st with modules := st.modules.add m tokens }
  | .backtrace tokens _ =>
      { st with errors := st.errors ++ [⟨tokens, attrBacktraceMsg ErrorLocation.onEnum⟩] }
  | .context tokens _ =>
      { st with errors := st.errors ++ [⟨tokens, attrContextMsg ErrorLocation.onEnum⟩] }
  | .whatever tokens =>
      { st with errors := st.errors ++ [⟨tokens, attrWhateverMsg ErrorLocation.onEnum⟩] }
  | .docComment _ _ => st

/-- The resolved enum-scope attributes of `parse_snafu_enum`:
module, default visibility (with the module-dependent default), crate
root, and the errors accumulated so far. -/
structure EnumPhase where
  module : Option ModuleName
  default_visibility : UserInput
  crate_root : UserInput
  errors : List SynError
deriving DecidableEq, Repr

/-- The enum-scope attribute phase of `parse_snafu_enum`: fold the
attributes, then finish the three ledgers and resolve the defaults. -/
def enumAttrPhase (attrs : List SnafuAttribute) : EnumPhase :=
  let st := attrs.foldl processEnumAttr EnumAttrState.init
  let finModule := st.modules.finish
  let module := finModule.1
  let errors := st.errors ++ finModule.2
  let default_default_visibility :=
    match module with
    | Option.some _ => pub_visibility
    | Option.none => private_visibility
  let finVis := st.default_visibilities.finish
  let default_visibility := finVis.1.getD default_default_visibility
  let errors := errors ++ finVis.2
  let finRoot := st.crate_roots.finish
  let crate_root := finRoot.1.getD default_crate_root
  let errors := errors ++ finRoot.2
  ⟨module, default_visibility, crate_root, errors⟩

/-- One variant of the `enum_.variants.into_iter().map(...)` closure in
`parse_snafu_enum`: positional fields are rejected with a fatal error,
named/unit variants run `field_container` against the shared error list. -/
def processVariant (errors : List SynError) (v : SynVariant) :
    List SynError × Except (List SynError) FieldContainer :=
  match v.fields with
  | .unnamed span => (errors, Except.error [⟨span, onlyStructLikeMsg⟩])
  | .named fields =>
      field_container v.ident v.span v.attrs fields errors
        ErrorLocation.onVariant ErrorLocation.inVariant
  | .unit =>
      field_container v.ident v.span v.attrs [] errors
        ErrorLocation.onVariant ErrorLocation.inVariant

/-- The variant map of `parse_snafu_enum`: every variant is processed (the
shared `SyntaxErrors` list threads through), and every per-variant
`Result` is kept. -/
def processVariants (errors : List SynError) :
    List SynVariant → List SynError × List (Except (List SynError) FieldContainer)
  | [] => (errors, [])
  | v :: rest =>
    let r := processVariant errors v
    let rs := processVariants r.1 rest
    (rs.1, r.2 :: rs.2)

/-- The error payload of one collected `Result` (empty for `Ok`). -/
def variantErrs {α : Type} : Except (List SynError) α → List SynError
  | Except.error e => e
  | Except.ok _ => []

/-- `sponge::AllErrors`'s `FromIterator<Result<C, Vec<E>>>` followed by
`into_result`: collect the `Ok` values, concatenate every `Err` list, and
fail iff some error was collected. -/
def allErrorsCollect {α : Type} (rs : List (Except (List SynError) α)) :
    Except (List SynError) (List α) :=
  let errors := (rs.map variantErrs).flatten
  if errors.isEmpty then Except.ok (rs.filterMap Except.toOption)
  else Except.error errors

/-- `SyntaxErrors::absorb`. -/
def absorb {α : Type} (errors : List SynError) (res : Except (List SynError) α) :
    Except (List SynError) α :=
  match res with
  | Except.ok v => if errors.isEmpty then Except.ok v else Except.error errors
  | Except.error e => Except.error (errors ++ e)

/-- `parse_snafu_enum` from `lib.rs` (attributes already parsed; the
trailing construction of `EnumInfo` is the function's `Ok` case). -/
def parse_snafu_enum (name : String) (generics : Nat) (attrs : List SnafuAttribute)
    (variants : List SynVariant) : Except (List SynError) EnumInfo :=
  let ph := enumAttrPhase attrs
  let step := processVariants ph.errors variants
  (absorb step.1 (allErrorsCollect step.2)).map
    (fun vs => ⟨ph.crate_root, name, generics, vs, ph.default_visibility, ph.module⟩)

/-- `enum SourceArg` from `parse.rs`: one comma-separated argument form
inside `source(...)` (a boolean flag literal or a `from(Type, expr)`
group). -/
inductive SourceArg where
  | flag (b : Bool)
  | fromArg (ty : Ty) (expr : ExprRef)
deriving DecidableEq, Repr

/-- The `SourceArg → Source` conversion inside
`Source::into_components`. -/
def sourceArgToComponent : SourceArg → SourceComp
  | .flag b => SourceComp.flag b
  | .fromArg t e => SourceComp.fromArg t e

/-- `Source::into_components` from `parse.rs`: `source` with no
parenthesized argument means `Flag(true)`; otherwise each comma-separated
argument form becomes one component. -/
def sourceIntoComponents : Option (List SourceArg) → List SourceComp
  | Option.none => [SourceComp.flag true]
  | Option.some args => args.map sourceArgToComponent

/-- The parse of the parenthesized argument of `backtrace` from
`parse.rs`: `MaybeArg<BacktraceArg>` parses exactly one boolean literal
(`BacktraceArg { value: LitBool }`); any leftover argument forms inside
the parentheses (or a non-boolean form) are a syn "unexpected token"
parse error. -/
def backtraceArgSingle : List SourceArg → Except Unit Bool
  | SourceArg.flag b :: rest => if rest.isEmpty then Except.ok b else Except.error ()
  | _ => Except.error ()

/-- `Backtrace` parse + `Backtrace::into_bool` from `parse.rs`: no
argument list means `true`; an argument list must consist of exactly one
boolean flag. -/
def backtraceParseValue : Option (List SourceArg) → Except Unit Bool
  | Option.none => Except.ok true
  | Option.some args => backtraceArgSingle args

/-- `enum SuffixArg` from `parse.rs`. -/
inductive SuffixArg where
  | flag (b : Bool)
  | suffixIdent (ident : String)
deriving DecidableEq, Repr

/-- `enum ContextArg` from `parse.rs`. -/
inductive ContextArg where
  | flag (b : Bool)
  | suffix (arg : SuffixArg)
deriving DecidableEq, Repr

/-- `Context::into_component` from `parse.rs`: a bare `context` is
`Flag(true)`; `context(bool)` is `Flag(bool)`; `context(suffix(...))`
resolves the suffix policy. -/
def contextIntoComponent : Option ContextArg → ContextAttr
  | Option.none => ContextAttr.flag true
  | Option.some (ContextArg.flag b) => ContextAttr.flag b
  | Option.some (ContextArg.suffix (SuffixArg.flag true)) => ContextAttr.suffix SuffixKind.default
  | Option.some (ContextArg.suffix (SuffixArg.flag false)) => ContextAttr.suffix SuffixKind.none
  | Option.some (ContextArg.suffix (SuffixArg.suffixIdent i)) =>
      ContextAttr.suffix (SuffixKind.some i)

end Snafu

namespace Snafu

/-- A field that is named, carries only documentation attributes, and is
not captured by the `source`/`backtrace` name-based defaults. -/
def SynField.cleanUser (f : SynField) : Bool :=
  match f.ident with
  | Option.some n => n ≠ "source" && n ≠ "backtrace" && f.attrs.all SnafuAttribute.isDoc
  | Option.none => false

end Snafu

namespace Snafu

/-- Adding to a ledger that already holds a value appends the whole batch
and one duplicate diagnostic per added occurrence. -/
theorem AtMostOne.addAll_of_ne_nil {T : Type} (ps : List (T × Loc)) :
    ∀ (a : AtMostOne T), a.values ≠ [] →
      a.addAll ps =
        ⟨a.name, a.location, a.values ++ ps,
         a.errors ++ ps.map (fun p => ⟨p.2, duplicateAttributeMsg a.name a.location⟩)⟩ := by
  induction ps with
  | nil => intro a _; simp [AtMostOne.addAll]
  | cons p ps ih =>
    intro a ha
    have hne : (a.add p.1 p.2).values ≠ [] := by
      simp [AtMostOne.add]
    have step : (a.addAll (p :: ps)) = (a.add p.1 p.2).addAll ps := by
      simp [AtMostOne.addAll]
    rw [step, ih _ hne]
    simp [AtMostOne.add, List.isEmpty_iff, ha]

end Snafu

namespace Snafu

/-- C6: for every `AtMostOne` ledger and every nonempty sequence of `add`
calls, `finish` returns the first value added together with exactly one
duplicate-attribute diagnostic per occurrence after the first, each
located at that occurrence's tokens and rendering the attribute name and
the scope phrase. -/
theorem atMostOne_addAll_finish {T : Type} (nm : String) (location : ErrorLocation)
    (ps : List (T × Loc)) (h : ps ≠ []) :
    ((AtMostOne.new T nm location).addAll ps).finish =
      (Option.some (ps.head h).1,
       ps.tail.map (fun p => ⟨p.2, duplicateAttributeMsg nm location⟩)) ∧
    (((AtMostOne.new T nm location).addAll ps).finish.2).length = ps.length - 1 := by
  match ps with
  | p :: ps =>
    have h1 : (AtMostOne.new T nm location).add p.1 p.2 = ⟨nm, location, [p], []⟩ := by
      simp [AtMostOne.new, AtMostOne.add]
    have step : ((AtMostOne.new T nm location).addAll (p :: ps)) =
        (⟨nm, location, [p], []⟩ : AtMostOne T).addAll ps := by
      simp [AtMostOne.addAll, h1]
    have h2 := AtMostOne.addAll_of_ne_nil ps (⟨nm, location, [p], []⟩ : AtMostOne T) (by simp)
    rw [step, h2]
    simp [AtMostOne.finish]

/-- C6 witness: adding `visibility` twice to one enum-scope ledger yields
exactly one duplicate diagnostic and the resolved value is the first
occurrence. -/
theorem atMostOne_addAll_finish_witness :
    ((AtMostOne.new UserInput "visibility" ErrorLocation.onEnum).addAll
        [(0, 10), (1, 20)]).finish =
      (Option.some 0,
       [⟨20, duplicateAttributeMsg "visibility" ErrorLocation.onEnum⟩]) ∧
    (((AtMostOne.new UserInput "visibility" ErrorLocation.onEnum).addAll
        [(0, 10), (1, 20)]).finish.2).length = 2 - 1 :=
  atMostOne_addAll_finish "visibility" ErrorLocation.onEnum [(0, 10), (1, 20)] (by decide)

/-- C9 counterexample: a comma-separated list of two argument forms inside
a single `backtrace(...)` annotation is not accepted: the parse of
`MaybeArg<BacktraceArg>` consumes exactly one boolean literal and the
leftover form is a parse error, so no occurrences are produced at all. -/
theorem backtrace_arg_list_rejected :
    backtraceParseValue (Option.some [SourceArg.flag false, SourceArg.flag true]) =
      Except.error () := rfl

/-- C9 (amended): a comma-separated list of argument forms in one `source`
annotation is accepted and expanded into one component per argument form
(`source(false, from(T, e))` yields a Flag and a From component), while a
`backtrace` annotation accepts at most a single boolean flag argument: an
absent argument list means `true`, a lone flag is taken verbatim, and any
list of two or more forms, or a `from` form, is a parse error. -/
theorem source_list_expands_backtrace_single :
    (∀ args : List SourceArg,
        sourceIntoComponents (Option.some args) = args.map sourceArgToComponent ∧
        (sourceIntoComponents (Option.some args)).length = args.length) ∧
    (∀ t e, sourceIntoComponents (Option.some [SourceArg.flag false, SourceArg.fromArg t e]) =
        [SourceComp.flag false, SourceComp.fromArg t e]) ∧
    backtraceParseValue Option.none = Except.ok true ∧
    (∀ b, backtraceParseValue (Option.some [SourceArg.flag b]) = Except.ok b) ∧
    (∀ a b rest, backtraceParseValue (Option.some (a :: b :: rest)) = Except.error ()) ∧
    (∀ t e, backtraceParseValue (Option.some [SourceArg.fromArg t e]) = Except.error ()) := by
  refine ⟨fun args => ⟨rfl, by simp [sourceIntoComponents]⟩, fun t e => rfl, rfl,
    fun b => rfl, ?_, fun t e => rfl⟩
  intro a b rest
  cases a <;> simp [backtraceParseValue, backtraceArgSingle]

end Snafu

namespace Snafu

/-- The per-field loop body never hits the fatal early return on a named
field. -/
theorem processField_snd_of_named (st : FieldsState) (f : SynField) (n : String)
    (h : f.ident = Option.some n) : (processField st f).2 = Option.none := by
  simp only [processField, h]
  repeat' split
  all_goals rfl

/-- The field loop never hits the fatal early return when every field is
named. -/
theorem processFields_snd_of_named (fields : List SynField) :
    ∀ st : FieldsState, (∀ f ∈ fields, f.ident.isSome = true) →
      (processFields st fields).2 = Option.none := by
  induction fields with
  | nil => intro st _; rfl
  | cons f rest ih =>
    intro st h
    obtain ⟨n, hn⟩ := Option.isSome_iff_exists.mp (h f (by simp))
    have h2 := processField_snd_of_named st f n hn
    rcases hpf : processField st f with ⟨st1, o⟩
    rw [hpf] at h2
    simp at h2
    subst h2
    simp only [processFields, hpf]
    exact ih st1 (fun g hg => h g (by simp [hg]))

/-- Documentation attributes leave the per-field attribute state
untouched. -/
theorem foldl_processFieldAttr_doc (n : String) (attrs : List SnafuAttribute)
    (h : ∀ a ∈ attrs, a.isDoc = true) :
    ∀ fs : FieldAttrState, attrs.foldl (processFieldAttr n) fs = fs := by
  induction attrs with
  | nil => intro fs; rfl
  | cons a rest ih =>
    intro fs
    have ha : a.isDoc = true := h a (by simp)
    cases a <;> simp [SnafuAttribute.isDoc] at ha
    simp only [List.foldl_cons, processFieldAttr]
    exact ih (fun g hg => h g (by simp [hg])) fs

/-- A named field that is not captured by the name-based defaults and has
only documentation attributes is classified as a user field, with no
diagnostics. -/
theorem processField_clean (st : FieldsState) (f : SynField) (n : String)
    (hn : f.ident = Option.some n) (hs : n ≠ "source") (hb : n ≠ "backtrace")
    (ha : ∀ a ∈ f.attrs, a.isDoc = true) :
    processField st f =
      ({ st with user_fields := st.user_fields ++ [⟨n, f.ty, f.loc⟩] }, Option.none) := by
  simp only [processField, hn]
  rw [foldl_processFieldAttr_doc n f.attrs ha]
  simp [FieldAttrState.init, AtMostOne.new, AtMostOne.finish_with_location, hs, hb]

/-- A list of clean user fields is classified wholesale into the user
field list, leaving the ledgers and the error list untouched. -/
theorem processFields_clean (fields : List SynField) :
    ∀ st : FieldsState, (∀ f ∈ fields, f.cleanUser = true) →
      processFields st fields =
        ({ st with user_fields := st.user_fields ++ fields.map SynField.toField },
         Option.none) := by
  induction fields with
  | nil => intro st _; simp [processFields]
  | cons f rest ih =>
    intro st h
    have hf : f.cleanUser = true := h f (by simp)
    rcases hid : f.ident with _ | n
    · rw [SynField.cleanUser, hid] at hf; simp at hf
    · rw [SynField.cleanUser, hid] at hf
      simp only [Bool.and_eq_true, decide_eq_true_eq, List.all_eq_true] at hf
      obtain ⟨⟨hs, hb⟩, ha⟩ := hf
      rw [processFields, processField_clean st f n hid hs hb ha]
      dsimp only
      rw [ih _ (fun g hg => h g (by simp [hg]))]
      have ht : SynField.toField f = ⟨n, f.ty, f.loc⟩ := by
        simp [SynField.toField, hid]
      simp [ht]

end Snafu

namespace Snafu

/-- A documentation attribute touches only the doc-comment accumulator of
the container attribute state. -/
theorem processContainerAttr_doc_proj (o : ErrorLocation) (ca : ContainerAttrState)
    (l : Loc) (s : String) :
    (processContainerAttr o ca (SnafuAttribute.docComment l s)).modules = ca.modules ∧
    (processContainerAttr o ca (SnafuAttribute.docComment l s)).display_formats =
      ca.display_formats ∧
    (processContainerAttr o ca (SnafuAttribute.docComment l s)).visibilities =
      ca.visibilities ∧
    (processContainerAttr o ca (SnafuAttribute.docComment l s)).contexts = ca.contexts ∧
    (processContainerAttr o ca (SnafuAttribute.docComment l s)).whatevers = ca.whatevers ∧
    (processContainerAttr o ca (SnafuAttribute.docComment l s)).errors = ca.errors := by
  simp only [processContainerAttr]
  split <;> [skip; split] <;> simp

/-- Folding a documentation-only attribute list leaves every ledger and
the error list of the container attribute state untouched. -/
theorem foldl_processContainerAttr_doc (o : ErrorLocation) (attrs : List SnafuAttribute)
    (h : ∀ a ∈ attrs, a.isDoc = true) :
    ∀ ca : ContainerAttrState,
      ((attrs.foldl (processContainerAttr o) ca).modules = ca.modules ∧
       (attrs.foldl (processContainerAttr o) ca).display_formats = ca.display_formats ∧
       (attrs.foldl (processContainerAttr o) ca).visibilities = ca.visibilities ∧
       (attrs.foldl (processContainerAttr o) ca).contexts = ca.contexts ∧
       (attrs.foldl (processContainerAttr o) ca).whatevers = ca.whatevers ∧
       (attrs.foldl (processContainerAttr o) ca).errors = ca.errors) := by
  induction attrs with
  | nil => intro ca; simp
  | cons a rest ih =>
    intro ca
    have ha : a.isDoc = true := h a (by simp)
    cases a <;> simp [SnafuAttribute.isDoc] at ha
    rename_i l s
    simp only [List.foldl_cons]
    have h1 := processContainerAttr_doc_proj o ca l s
    have h2 := ih (fun g hg => h g (by simp [hg])) (processContainerAttr o ca (SnafuAttribute.docComment l s))
    exact ⟨h2.1.trans h1.1, h2.2.1.trans h1.2.1, h2.2.2.1.trans h1.2.2.1,
      h2.2.2.2.1.trans h1.2.2.2.1, h2.2.2.2.2.1.trans h1.2.2.2.2.1,
      h2.2.2.2.2.2.trans h1.2.2.2.2.2⟩

end Snafu

namespace Snafu

/-- C1 counterexample: a variant with no snafu attributes whose only field
is named `source` resolves to a `Context` selector kind whose causal
(source) field is present and whose user-visible field list is empty, so
"no causal field, every declared field user-visible" fails on the
name-based default. -/
theorem no_attr_source_named_field_causal :
    ((field_container "Alpha" 0 [] [⟨Option.some "source", 0, [], 1⟩] []
        ErrorLocation.onVariant ErrorLocation.inVariant).2.toOption.map
      (fun fc =>
        ((fc.selector_kind.source_field).isSome, fc.selector_kind.user_fields.length))) =
      Option.some (true, 0) := by
  rfl

/-- C1 (amended): for every container (enum variant or named struct) whose
attribute list holds only documentation lines and whose fields are all
named, carry only documentation attributes, and are not named `source` or
`backtrace`, the resolved selector kind is `Context` with the default
suffix, no causal field, every declared field user-visible, and no
diagnostics recorded. -/
theorem clean_container_context_default (name : String) (variantSpan : Loc)
    (attrs : List SnafuAttribute) (fields : List SynField) (errs : List SynError)
    (o i : ErrorLocation)
    (hattrs : ∀ a ∈ attrs, a.isDoc = true)
    (hfields : ∀ f ∈ fields, f.cleanUser = true) :
    (field_container name variantSpan attrs fields errs o i).1 = errs ∧
    ((field_container name variantSpan attrs fields errs o i).2.toOption.map
        (fun fc => (fc.selector_kind, fc.backtrace_field))) =
      Option.some
        (ContextSelectorKind.context SuffixKind.default Option.none
            (fields.map SynField.toField),
         Option.none) := by
  obtain ⟨hm, hd, hv, hc, hw, he⟩ :=
    foldl_processContainerAttr_doc o attrs hattrs (ContainerAttrState.init o errs)
  have he2 : (attrs.foldl (processContainerAttr o) (ContainerAttrState.init o errs)).errors
      = errs := by rw [he]; rfl
  have hpf := processFields_clean fields
    (FieldsState.init i
      (attrs.foldl (processContainerAttr o) (ContainerAttrState.init o errs)).errors)
    hfields
  rw [field_container]
  simp only [hpf]
  simp only [field_container_resolve, FieldsState.init]
  simp only [hm, hd, hv, hc, hw, he2]
  simp only [ContainerAttrState.init]
  simp [AtMostOne.new, AtMostOne.finish, AtMostOne.finish_with_location]
  exact ⟨_, rfl, rfl, rfl⟩

end Snafu

namespace Snafu

/-- C1 witness: a concrete doc-commented variant with one clean `id` field
resolves to the default `Context` selector with no causal field and the
single user field, with no diagnostics. -/
theorem clean_container_context_default_witness :
    (field_container "Alpha" 0 [SnafuAttribute.docComment 0 "doc"]
        [⟨Option.some "id", 3, [], 4⟩] [] ErrorLocation.onVariant
        ErrorLocation.inVariant).1 = [] ∧
    ((field_container "Alpha" 0 [SnafuAttribute.docComment 0 "doc"]
        [⟨Option.some "id", 3, [], 4⟩] [] ErrorLocation.onVariant
        ErrorLocation.inVariant).2.toOption.map
      (fun fc => (fc.selector_kind, fc.backtrace_field))) =
      Option.some
        (ContextSelectorKind.context SuffixKind.default Option.none
            (List.map SynField.toField [⟨Option.some "id", 3, [], 4⟩]),
         Option.none) :=
  clean_container_context_default "Alpha" 0 [SnafuAttribute.docComment 0 "doc"]
    [⟨Option.some "id", 3, [], 4⟩] [] ErrorLocation.onVariant ErrorLocation.inVariant
    (by decide) (by decide)

/-- When every field is named, `field_container` reaches the resolution
stage (no fatal early return in the field loop). -/
theorem field_container_eq_resolve (name : String) (variantSpan : Loc)
    (attrs : List SnafuAttribute) (fields : List SynField) (errs : List SynError)
    (o i : ErrorLocation) (hnamed : ∀ f ∈ fields, f.ident.isSome = true) :
    ∃ fs : FieldsState,
      processFields
          (FieldsState.init i
            ((attrs.foldl (processContainerAttr o) (ContainerAttrState.init o errs))).errors)
          fields = (fs, Option.none) ∧
      field_container name variantSpan attrs fields errs o i =
        field_container_resolve name variantSpan o
          (attrs.foldl (processContainerAttr o) (ContainerAttrState.init o errs)) fs := by
  rcases hps : processFields
      (FieldsState.init i
        ((attrs.foldl (processContainerAttr o) (ContainerAttrState.init o errs))).errors)
      fields with ⟨fs, oo⟩
  have hnone := processFields_snd_of_named fields
    (FieldsState.init i
      ((attrs.foldl (processContainerAttr o) (ContainerAttrState.init o errs))).errors)
    hnamed
  rw [hps] at hnone
  simp only at hnone
  subst hnone
  refine ⟨fs, rfl, ?_⟩
  rw [field_container]
  simp only [hps]

/-- An enabled `context` occurrence together with a `whatever` occurrence
resolves to the fatal two-diagnostic mutual-exclusion error. -/
theorem resolve_snd_context_whatever (name : String) (span : Loc) (o : ErrorLocation)
    (ca : ContainerAttrState) (fs : FieldsState) (cTT oTT : Loc) (en : ContextAttr)
    (k : SuffixKind)
    (hc : ca.contexts.values.head? = Option.some (en, cTT))
    (hen : en.into_enabled = (true, k))
    (hw : ca.whatevers.values.head? = Option.some ((), oTT)) :
    (field_container_resolve name span o ca fs).2 =
      Except.error [⟨cTT, contextWhateverMsg⟩, ⟨oTT, contextWhateverMsg⟩] := by
  simp only [field_container_resolve, AtMostOne.finish_with_location, AtMostOne.finish,
    hc, hw, hen, Option.map]

/-- An enabled `context` occurrence with no `whatever` occurrence resolves
to a `Context` selector kind with the occurrence's suffix policy. -/
theorem resolve_snd_context_enabled (name : String) (span : Loc) (o : ErrorLocation)
    (ca : ContainerAttrState) (fs : FieldsState) (cTT : Loc) (en : ContextAttr)
    (k : SuffixKind)
    (hc : ca.contexts.values.head? = Option.some (en, cTT))
    (hen : en.into_enabled = (true, k))
    (hw : ca.whatevers.values.head? = Option.none) :
    (field_container_resolve name span o ca fs).2 =
      Except.ok
        ⟨name, (fs.backtrace_fields.values.head?).map Prod.fst,
         ContextSelectorKind.context k ((fs.source_fields.values.head?).map Prod.fst)
           fs.user_fields,
         (ca.display_formats.values.head?).map Prod.fst, ca.doc_comment,
         (ca.visibilities.values.head?).map Prod.fst,
         (ca.modules.values.head?).map Prod.fst⟩ := by
  simp only [field_container_resolve, AtMostOne.finish_with_location, AtMostOne.finish,
    hc, hw, hen, Option.map]

/-- With neither `context` nor `whatever` occurrences the selector kind is
a `Context` with the default suffix. -/
theorem resolve_snd_no_attrs (name : String) (span : Loc) (o : ErrorLocation)
    (ca : ContainerAttrState) (fs : FieldsState)
    (hc : ca.contexts.values.head? = Option.none)
    (hw : ca.whatevers.values.head? = Option.none) :
    (field_container_resolve name span o ca fs).2 =
      Except.ok
        ⟨name, (fs.backtrace_fields.values.head?).map Prod.fst,
         ContextSelectorKind.context SuffixKind.default
           ((fs.source_fields.values.head?).map Prod.fst) fs.user_fields,
         (ca.display_formats.values.head?).map Prod.fst, ca.doc_comment,
         (ca.visibilities.values.head?).map Prod.fst,
         (ca.modules.values.head?).map Prod.fst⟩ := by
  simp only [field_container_resolve, AtMostOne.finish_with_location, AtMostOne.finish,
    hc, hw, Option.map]

end Snafu

namespace Snafu

/-- C2: for every scope (variant or named struct) that carries both a
`context(true)` attribute (a bare `context` parses to the same
`Flag(true)` payload) and a `whatever` attribute, and whose fields are all
named, resolution fails with exactly the two mutual-exclusion diagnostics,
one located at each of the two attributes, and no field container is
produced for that scope. -/
theorem context_whatever_two_diagnostics (name : String) (variantSpan : Loc)
    (l1 l2 : Loc) (fields : List SynField) (errs : List SynError) (o i : ErrorLocation)
    (hnamed : ∀ f ∈ fields, f.ident.isSome = true) :
    (field_container name variantSpan
        [SnafuAttribute.context l1 (ContextAttr.flag true), SnafuAttribute.whatever l2]
        fields errs o i).2 =
      Except.error [⟨l1, contextWhateverMsg⟩, ⟨l2, contextWhateverMsg⟩] := by
  obtain ⟨fs, _, heq⟩ := field_container_eq_resolve name variantSpan
    [SnafuAttribute.context l1 (ContextAttr.flag true), SnafuAttribute.whatever l2]
    fields errs o i hnamed
  rw [heq]
  exact resolve_snd_context_whatever name variantSpan o _ fs l1 l2
    (ContextAttr.flag true) SuffixKind.none rfl rfl rfl

/-- C2 witness: a concrete variant with a `context(true)` attribute at
location 1 and a `whatever` attribute at location 2 fails with exactly the
two diagnostics at those locations. -/
theorem context_whatever_two_diagnostics_witness :
    (field_container "V" 0
        [SnafuAttribute.context 1 (ContextAttr.flag true), SnafuAttribute.whatever 2]
        [⟨Option.some "id", 0, [], 3⟩] [] ErrorLocation.onVariant
        ErrorLocation.inVariant).2 =
      Except.error [⟨1, contextWhateverMsg⟩, ⟨2, contextWhateverMsg⟩] :=
  context_whatever_two_diagnostics "V" 0 1 2 [⟨Option.some "id", 0, [], 3⟩] []
    ErrorLocation.onVariant ErrorLocation.inVariant (by decide)

/-- C10: `context(true)` parses to the explicit `Flag(true)` payload,
which `into_enabled` maps to suffix kind `None`, so a scope annotated
`context(true)` resolves to a `Context` selector with no suffix appended,
while the same scope without a `context` attribute resolves to the
`Default` suffix kind; the two suffix kinds differ. -/
theorem context_true_suffix_none (name : String) (variantSpan : Loc) (l : Loc)
    (fields : List SynField) (errs : List SynError) (o i : ErrorLocation)
    (hnamed : ∀ f ∈ fields, f.ident.isSome = true) :
    contextIntoComponent (Option.some (ContextArg.flag true)) = ContextAttr.flag true ∧
    (ContextAttr.flag true).into_enabled = (true, SuffixKind.none) ∧
    ((field_container name variantSpan [SnafuAttribute.context l (ContextAttr.flag true)]
        fields errs o i).2.toOption.map (fun fc => fc.selector_kind.suffixOf)) =
      Option.some (Option.some SuffixKind.none) ∧
    ((field_container name variantSpan [] fields errs o i).2.toOption.map
        (fun fc => fc.selector_kind.suffixOf)) =
      Option.some (Option.some SuffixKind.default) ∧
    SuffixKind.none ≠ SuffixKind.default := by
  refine ⟨rfl, rfl, ?_, ?_, by simp⟩
  · obtain ⟨fs, _, heq⟩ := field_container_eq_resolve name variantSpan
      [SnafuAttribute.context l (ContextAttr.flag true)] fields errs o i hnamed
    rw [heq, resolve_snd_context_enabled name variantSpan o
      (List.foldl (processContainerAttr o) (ContainerAttrState.init o errs)
        [SnafuAttribute.context l (ContextAttr.flag true)]) fs l
      (ContextAttr.flag true) SuffixKind.none rfl rfl rfl]
    rfl
  · obtain ⟨fs, _, heq⟩ := field_container_eq_resolve name variantSpan [] fields errs o i
      hnamed
    rw [heq, resolve_snd_no_attrs name variantSpan o
      (List.foldl (processContainerAttr o) (ContainerAttrState.init o errs) []) fs rfl rfl]
    rfl

/-- C10 witness: a concrete variant with `context(true)` resolves with
suffix kind `None`; the same variant with no attributes resolves with the
`Default` suffix kind. -/
theorem context_true_suffix_none_witness :
    contextIntoComponent (Option.some (ContextArg.flag true)) = ContextAttr.flag true ∧
    (ContextAttr.flag true).into_enabled = (true, SuffixKind.none) ∧
    ((field_container "V" 0 [SnafuAttribute.context 1 (ContextAttr.flag true)]
        [⟨Option.some "id", 0, [], 2⟩] [] ErrorLocation.onVariant
        ErrorLocation.inVariant).2.toOption.map
      (fun fc => fc.selector_kind.suffixOf)) =
      Option.some (Option.some SuffixKind.none) ∧
    ((field_container "V" 0 [] [⟨Option.some "id", 0, [], 2⟩] []
        ErrorLocation.onVariant ErrorLocation.inVariant).2.toOption.map
      (fun fc => fc.selector_kind.suffixOf)) =
      Option.some (Option.some SuffixKind.default) ∧
    SuffixKind.none ≠ SuffixKind.default :=
  context_true_suffix_none "V" 0 1 [⟨Option.some "id", 0, [], 2⟩] []
    ErrorLocation.onVariant ErrorLocation.inVariant (by decide)

end Snafu

namespace Snafu

/-- C3: a field literally named `source` with no attributes is classified
as the causal field (identity transformation, no delegation); the same
field annotated `source(false)` is opted out and classified as a
user-visible field with no diagnostic; and `source(false)` on a field
with any other name records the wrong-field diagnostic instead of opting
anything out. -/
theorem source_field_classification (st : FieldsState) (ty : Ty) (floc al : Loc)
    (n : String) :
    processField st ⟨Option.some "source", ty, [], floc⟩ =
      ({ st with
          source_fields :=
            st.source_fields.add ⟨"source", Transformation.identity ty, false⟩ floc },
       Option.none) ∧
    processField st ⟨Option.some "source", ty,
        [SnafuAttribute.source al [SourceComp.flag false]], floc⟩ =
      ({ st with user_fields := st.user_fields ++ [⟨"source", ty, floc⟩] }, Option.none) ∧
    (n ≠ "source" →
      (processField st ⟨Option.some n, ty,
          [SnafuAttribute.source al [SourceComp.flag false]], floc⟩).1.errors =
        st.errors ++ [⟨al, attrSourceFalseMsg⟩] ∧
      (processField st ⟨Option.some n, ty,
          [SnafuAttribute.source al [SourceComp.flag false]], floc⟩).2 = Option.none) := by
  refine ⟨?_, ?_, fun hn => ⟨?_, ?_⟩⟩
  · simp [processField, FieldAttrState.init, AtMostOne.new, AtMostOne.finish_with_location]
  · simp [processField, processFieldAttr, processSourceComp, FieldAttrState.init,
      AtMostOne.new, AtMostOne.finish_with_location]
  · simp [processField, processFieldAttr, processSourceComp, FieldAttrState.init,
      AtMostOne.new, AtMostOne.finish_with_location, hn]
    split <;> simp
  · simp [processField, processFieldAttr, processSourceComp, FieldAttrState.init,
      AtMostOne.new, AtMostOne.finish_with_location, hn]
    split <;> simp

/-- C3 witness: on a field named `source` with no attributes the causal
classification applies; with `source(false)` the field is user-visible;
and `source(false)` on a field named `x` records the wrong-field
diagnostic. -/
theorem source_field_classification_witness :
    processField (FieldsState.init ErrorLocation.inVariant []) ⟨Option.some "source", 0, [], 9⟩ =
      ({ FieldsState.init ErrorLocation.inVariant [] with
          source_fields :=
            (FieldsState.init ErrorLocation.inVariant []).source_fields.add
              ⟨"source", Transformation.identity 0, false⟩ 9 },
       Option.none) ∧
    processField (FieldsState.init ErrorLocation.inVariant [])
        ⟨Option.some "source", 0, [SnafuAttribute.source 5 [SourceComp.flag false]], 9⟩ =
      ({ FieldsState.init ErrorLocation.inVariant [] with
          user_fields :=
            (FieldsState.init ErrorLocation.inVariant []).user_fields ++ [⟨"source", 0, 9⟩] },
       Option.none) ∧
    ((processField (FieldsState.init ErrorLocation.inVariant [])
        ⟨Option.some "x", 0, [SnafuAttribute.source 5 [SourceComp.flag false]], 9⟩).1.errors =
      (FieldsState.init ErrorLocation.inVariant []).errors ++ [⟨5, attrSourceFalseMsg⟩] ∧
     (processField (FieldsState.init ErrorLocation.inVariant [])
        ⟨Option.some "x", 0, [SnafuAttribute.source 5 [SourceComp.flag false]], 9⟩).2 =
      Option.none) :=
  ⟨(source_field_classification (FieldsState.init ErrorLocation.inVariant []) 0 9 5 "x").1,
   (source_field_classification (FieldsState.init ErrorLocation.inVariant []) 0 9 5 "x").2.1,
   (source_field_classification (FieldsState.init ErrorLocation.inVariant []) 0 9 5 "x").2.2
     (by decide)⟩

end Snafu

namespace Snafu

/-- C4 counterexample: on a field named `x` (not `source`), the single
comma-separated annotation `source(false, from(...))` — `source(false)`
preceding `source(from(...))` — records only the wrong-field diagnostic
for `source(false)`, and no incompatible-attributes diagnostic at all. -/
theorem source_false_then_from_no_incompat :
    (field_container "V" 0 []
        [⟨Option.some "x", 0,
          [SnafuAttribute.source 5 [SourceComp.flag false, SourceComp.fromArg 7 8]], 9⟩]
        [] ErrorLocation.onVariant ErrorLocation.inVariant).1 =
      [⟨5, attrSourceFalseMsg⟩] ∧
    attrSourceFalseMsg ≠ sourceBoolFromIncompatibleMsg ErrorLocation.onField := by
  exact ⟨rfl, by decide⟩

/-- C4 (amended): on a field named `source`, `source(from(...))` together
with `source(false)` records the incompatible-attributes diagnostic in
either order, both as two separate attributes and within one
comma-separated `source(...)` attribute.  On a field with any other name
the diagnostic is recorded only when the `from` form precedes the
`false` form; when `source(false)` comes first, only its wrong-field
diagnostic is recorded. -/
theorem source_from_false_incompat (st : FieldsState) (ty : Ty) (floc l1 l2 : Loc)
    (t : Ty) (e : ExprRef) (n : String) :
    (processField st ⟨Option.some "source", ty,
        [SnafuAttribute.source l1 [SourceComp.flag false],
         SnafuAttribute.source l2 [SourceComp.fromArg t e]], floc⟩).1.errors =
      st.errors ++ [⟨l2, sourceBoolFromIncompatibleMsg ErrorLocation.onField⟩] ∧
    (processField st ⟨Option.some "source", ty,
        [SnafuAttribute.source l1 [SourceComp.fromArg t e],
         SnafuAttribute.source l2 [SourceComp.flag false]], floc⟩).1.errors =
      st.errors ++ [⟨l2, sourceBoolFromIncompatibleMsg ErrorLocation.onField⟩] ∧
    (processField st ⟨Option.some "source", ty,
        [SnafuAttribute.source l1 [SourceComp.flag false, SourceComp.fromArg t e]],
        floc⟩).1.errors =
      st.errors ++ [⟨l1, sourceBoolFromIncompatibleMsg ErrorLocation.onField⟩] ∧
    (processField st ⟨Option.some "source", ty,
        [SnafuAttribute.source l1 [SourceComp.fromArg t e, SourceComp.flag false]],
        floc⟩).1.errors =
      st.errors ++ [⟨l1, sourceBoolFromIncompatibleMsg ErrorLocation.onField⟩] ∧
    (n ≠ "source" →
      (processField st ⟨Option.some n, ty,
          [SnafuAttribute.source l1 [SourceComp.fromArg t e],
           SnafuAttribute.source l2 [SourceComp.flag false]], floc⟩).1.errors =
        st.errors ++ [⟨l2, sourceBoolFromIncompatibleMsg ErrorLocation.onField⟩,
          ⟨l2, attrSourceFalseMsg⟩] ∧
      (processField st ⟨Option.some n, ty,
          [SnafuAttribute.source l1 [SourceComp.flag false],
           SnafuAttribute.source l2 [SourceComp.fromArg t e]], floc⟩).1.errors =
        st.errors ++ [⟨l1, attrSourceFalseMsg⟩] ∧
      (processField st ⟨Option.some n, ty,
          [SnafuAttribute.source l1 [SourceComp.fromArg t e, SourceComp.flag false]],
          floc⟩).1.errors =
        st.errors ++ [⟨l1, sourceBoolFromIncompatibleMsg ErrorLocation.onField⟩,
          ⟨l1, attrSourceFalseMsg⟩] ∧
      (processField st ⟨Option.some n, ty,
          [SnafuAttribute.source l1 [SourceComp.flag false, SourceComp.fromArg t e]],
          floc⟩).1.errors =
        st.errors ++ [⟨l1, attrSourceFalseMsg⟩]) := by
  refine ⟨?_, ?_, ?_, ?_, fun hn => ⟨?_, ?_, ?_, ?_⟩⟩ <;>
    simp [processField, processFieldAttr, processSourceComp, FieldAttrState.init,
      AtMostOne.new, AtMostOne.add, AtMostOne.finish_with_location, *]

/-- C4 witness: the amended behaviour at concrete locations — on a field
named `source` the one-attribute order `from` then `false` records the
incompatible-attributes diagnostic, and on a field named `x` the order
`false` then `from` as two attributes records only the wrong-field
diagnostic. -/
theorem source_from_false_incompat_witness :
    (processField (FieldsState.init ErrorLocation.inVariant [])
        ⟨Option.some "source", 0,
         [SnafuAttribute.source 5 [SourceComp.fromArg 7 8, SourceComp.flag false]],
         9⟩).1.errors =
      (FieldsState.init ErrorLocation.inVariant []).errors ++
        [⟨5, sourceBoolFromIncompatibleMsg ErrorLocation.onField⟩] ∧
    (processField (FieldsState.init ErrorLocation.inVariant [])
        ⟨Option.some "x", 0,
         [SnafuAttribute.source 5 [SourceComp.flag false],
          SnafuAttribute.source 6 [SourceComp.fromArg 7 8]], 9⟩).1.errors =
      (FieldsState.init ErrorLocation.inVariant []).errors ++ [⟨5, attrSourceFalseMsg⟩] :=
  ⟨(source_from_false_incompat (FieldsState.init ErrorLocation.inVariant []) 0 9 5 6 7 8
      "x").2.2.2.1,
   ((source_from_false_incompat (FieldsState.init ErrorLocation.inVariant []) 0 9 5 6 7 8
      "x").2.2.2.2 (by decide)).2.1⟩

end Snafu

namespace Snafu

/-- Characterization of the message-collection loop of the `Whatever`
branch: `message`-named fields accumulate in the ledger (with duplicate
diagnostics for every one after the first when the ledger started empty),
and all other user fields record the context-field diagnostic in order. -/
theorem foldl_whateverMessageStep (ufs : List Field) :
    ∀ (a : AtMostOne Field) (es : List SynError),
      ufs.foldl whateverMessageStep (a, es) =
        (⟨a.name, a.location,
          a.values ++
            ((ufs.filter (fun f => f.name = "message")).map (fun f => (f, f.original))),
          a.errors ++
            (if a.values.isEmpty = true then
              ((ufs.filter (fun f => f.name = "message")).tail).map
                (fun f => ⟨f.original, duplicateAttributeMsg a.name a.location⟩)
             else
              ((ufs.filter (fun f => f.name = "message")).map
                (fun f => ⟨f.original, duplicateAttributeMsg a.name a.location⟩)))⟩,
         es ++
          ((ufs.filter (fun f => ¬ f.name = "message")).map
            (fun f => ⟨f.original, whateverContextFieldMsg⟩))) := by
  induction ufs with
  | nil => intro a es; simp
  | cons f rest ih =>
    intro a es
    by_cases hf : f.name = "message"
    · rw [List.foldl_cons]
      rw [show whateverMessageStep (a, es) f = (a.add f f.original, es) by
        simp [whateverMessageStep, hf]]
      rw [ih]
      by_cases hv : a.values.isEmpty = true
      · have hv2 : a.values = [] := List.isEmpty_iff.mp hv
        simp [AtMostOne.add, hf, hv, hv2]
      · simp [AtMostOne.add, hf, hv]
    · rw [List.foldl_cons]
      rw [show whateverMessageStep (a, es) f =
          (a, es ++ [⟨f.original, whateverContextFieldMsg⟩]) by
        simp [whateverMessageStep, hf]]
      rw [ih]
      simp [hf]

end Snafu

namespace Snafu

/-- C5: on a scope resolved as a `Whatever` selector (here: a `whatever`
attribute and no `context` attribute, with clean named fields), every
user-visible field not named `message` records a diagnostic, every
`message` field after the first records a duplicate diagnostic, the
absence of a `message` field is a fatal error for the scope, and with a
first `message` field present resolution succeeds with that field carried
verbatim as the message field (so with exactly one `message` field and no
other user field, resolution succeeds with no diagnostics). -/
theorem whatever_message_resolution (name : String) (variantSpan : Loc) (l : Loc)
    (fields : List SynField) (errs : List SynError) (o i : ErrorLocation)
    (hfields : ∀ f ∈ fields, f.cleanUser = true) :
    (field_container name variantSpan [SnafuAttribute.whatever l] fields errs o i).1 =
      errs ++
        ((fields.map SynField.toField).filter (fun f => ¬ f.name = "message")).map
          (fun f => ⟨f.original, whateverContextFieldMsg⟩) ++
        (((fields.map SynField.toField).filter (fun f => f.name = "message")).tail).map
          (fun f => ⟨f.original, duplicateAttributeMsg "message" o⟩) ∧
    ((fields.map SynField.toField).filter (fun f => f.name = "message") = [] →
      (field_container name variantSpan [SnafuAttribute.whatever l] fields errs o i).2 =
        Except.error [⟨variantSpan, whateverNoMessageMsg⟩]) ∧
    (∀ m : Field,
      ((fields.map SynField.toField).filter (fun f => f.name = "message")).head? =
        Option.some m →
      (field_container name variantSpan [SnafuAttribute.whatever l] fields errs o i).2 =
        Except.ok
          ⟨name, Option.none, ContextSelectorKind.whatever Option.none m, Option.none, "",
           Option.none, Option.none⟩) := by
  have hpf := processFields_clean fields
    (FieldsState.init i
      ((List.foldl (processContainerAttr o) (ContainerAttrState.init o errs)
        [SnafuAttribute.whatever l])).errors) hfields
  rw [field_container]
  simp only [hpf]
  simp only [field_container_resolve, FieldsState.init, List.foldl_cons, List.foldl_nil,
    processContainerAttr, ContainerAttrState.init, AtMostOne.new, AtMostOne.add,
    AtMostOne.finish, AtMostOne.finish_with_location, List.isEmpty_nil, if_true,
    List.nil_append, List.append_nil, List.head?, Option.map]
  rw [foldl_whateverMessageStep]
  rcases hms : (fields.map SynField.toField).filter (fun f => f.name = "message") with
    _ | ⟨m0, ms⟩ <;>
    simp [hms, AtMostOne.finish]

end Snafu

namespace Snafu

/-- C5 witness: a `whatever` variant with no fields fails fatally for want
of a message field; a `whatever` variant with exactly one `message` field
resolves successfully with that field as the message and no
diagnostics. -/
theorem whatever_message_resolution_witness :
    (field_container "W" 7 [SnafuAttribute.whatever 1] [] [] ErrorLocation.onVariant
        ErrorLocation.inVariant).2 =
      Except.error [⟨7, whateverNoMessageMsg⟩] ∧
    (field_container "W" 0 [SnafuAttribute.whatever 1] [⟨Option.some "message", 0, [], 2⟩]
        [] ErrorLocation.onVariant ErrorLocation.inVariant).1 = [] ∧
    (field_container "W" 0 [SnafuAttribute.whatever 1] [⟨Option.some "message", 0, [], 2⟩]
        [] ErrorLocation.onVariant ErrorLocation.inVariant).2 =
      Except.ok
        ⟨"W", Option.none, ContextSelectorKind.whatever Option.none ⟨"message", 0, 2⟩,
         Option.none, "", Option.none, Option.none⟩ :=
  ⟨(whatever_message_resolution "W" 7 1 [] [] ErrorLocation.onVariant
      ErrorLocation.inVariant (by decide)).2.1 rfl,
   (whatever_message_resolution "W" 0 1 [⟨Option.some "message", 0, [], 2⟩] []
      ErrorLocation.onVariant ErrorLocation.inVariant (by decide)).1,
   (whatever_message_resolution "W" 0 1 [⟨Option.some "message", 0, [], 2⟩] []
      ErrorLocation.onVariant ErrorLocation.inVariant (by decide)).2.2
     ⟨"message", 0, 2⟩ rfl⟩

end Snafu

namespace Snafu

/-- C7: a variant with positional fields is rejected with its own fatal
diagnostic, and the whole-enum result is either the full list of resolved
variants (when no variant failed and no non-fatal diagnostic was
recorded) or the non-fatal diagnostics followed by the concatenation of
the diagnostic lists of simply every failing variant — never only the
first failure. -/
theorem enum_collects_all_diagnostics (name : String) (generics : Nat)
    (attrs : List SnafuAttribute) (variants : List SynVariant) :
    (∀ (errors : List SynError) (ident : String) (vspan fspan : Loc)
        (vattrs : List SnafuAttribute),
      processVariant errors ⟨ident, vspan, VariantFields.unnamed fspan, vattrs⟩ =
        (errors, Except.error [⟨fspan, onlyStructLikeMsg⟩])) ∧
    (if (processVariants (enumAttrPhase attrs).errors variants).1 = [] ∧
        ((processVariants (enumAttrPhase attrs).errors variants).2.map variantErrs).flatten
          = []
     then
      parse_snafu_enum name generics attrs variants =
        Except.ok
          ⟨(enumAttrPhase attrs).crate_root, name, generics,
           (processVariants (enumAttrPhase attrs).errors variants).2.filterMap
             Except.toOption,
           (enumAttrPhase attrs).default_visibility, (enumAttrPhase attrs).module⟩
     else
      parse_snafu_enum name generics attrs variants =
        Except.error
          ((processVariants (enumAttrPhase attrs).errors variants).1 ++
           ((processVariants (enumAttrPhase attrs).errors variants).2.map
             variantErrs).flatten)) := by
  refine ⟨fun errors ident vspan fspan vattrs => rfl, ?_⟩
  rcases hs : processVariants (enumAttrPhase attrs).errors variants with ⟨errsN, results⟩
  rw [parse_snafu_enum]
  simp only [hs]
  by_cases hf : (results.map variantErrs).flatten = []
  · by_cases he : errsN = []
    · simp only [allErrorsCollect, absorb, hf, he]
      rfl
    · have hcond : ¬(errsN = [] ∧ (List.map variantErrs results).flatten = []) :=
        fun h => he h.1
      simp only [allErrorsCollect, absorb, hf]
      simp [hcond, he, List.isEmpty_iff, Except.map]
  · have hcond : ¬(errsN = [] ∧ (results.map variantErrs).flatten = []) := fun h => hf h.2
    simp only [allErrorsCollect, absorb]
    simp [hcond, hf, List.isEmpty_iff, Except.map]

end Snafu


namespace Snafu

/-- If resolution succeeds with both a backtrace field and a delegating
source field in the model, then the two conflict diagnostics were
recorded in the error list. -/
theorem resolve_conflict_two (name : String) (span : Loc) (o : ErrorLocation)
    (ca : ContainerAttrState) (fs : FieldsState) (fc : FieldContainer)
    (hok : (field_container_resolve name span o ca fs).2 = Except.ok fc)
    (hbt : fc.backtrace_field.isSome = true)
    (hsf : ∃ sf, fc.selector_kind.source_field = Option.some sf ∧
      sf.backtrace_delegate = true) :
    2 ≤ (field_container_resolve name span o ca fs).1.countP
        (fun e => e.msg = backtraceConflictMsg) := by
  obtain ⟨sf, hsf1, hsf2⟩ := hsf
  rw [field_container_resolve] at hok ⊢
  simp only [AtMostOne.finish_with_location, AtMostOne.finish] at hok ⊢
  rcases hsrc : fs.source_fields.values.head? with _ | ⟨sf0, ls⟩
  · -- no resolved source field: every successful branch has no causal field
    exfalso
    rw [hsrc] at hok
    simp only [Option.map_none'] at hok
    split at hok <;> (try split at hok) <;>
      first
      | exact Except.noConfusion hok
      | (injection hok with hok
         subst hok
         simp_all [ContextSelectorKind.source_field])
  rcases hbtv : fs.backtrace_fields.values.head? with _ | ⟨bf0, lb⟩
  · -- no resolved backtrace field: every successful branch has none
    exfalso
    rw [hsrc, hbtv] at hok
    simp only [Option.map_none'] at hok
    split at hok <;> (try split at hok) <;>
      first
      | exact Except.noConfusion hok
      | (injection hok with hok
         subst hok
         simp_all [ContextSelectorKind.source_field])
  rcases hdel : sf0.backtrace_delegate with _ | _
  · -- non-delegating source field contradicts the hypothesis
    exfalso
    rw [hsrc, hbtv] at hok
    simp only [Option.map_some'] at hok
    split at hok <;> (try split at hok) <;>
      first
      | exact Except.noConfusion hok
      | (injection hok with hok
         subst hok
         simp_all [ContextSelectorKind.source_field])
  · -- delegating source plus backtrace field: both diagnostics recorded
    clear hok hsf1 hsf2 hbt
    dsimp only
    simp only [hdel]
    rw [foldl_whateverMessageStep]
    split <;> (try split) <;>
      (simp only [List.countP_append, List.countP_cons]
       try simp_all
       try omega)

end Snafu

namespace Snafu

/-- C8: no validated container model ever pairs a backtrace field with a
source field whose delegates-trace flag is set without diagnostics:
whenever `field_container` succeeds with both resolved in one scope, at
least the two conflict diagnostics are in the shared error list, so the
error list is non-empty and overall validation fails before code
generation. -/
theorem backtrace_delegate_conflict (name : String) (variantSpan : Loc)
    (attrs : List SnafuAttribute) (fields : List SynField) (errs : List SynError)
    (o i : ErrorLocation) (fc : FieldContainer)
    (hok : (field_container name variantSpan attrs fields errs o i).2 = Except.ok fc)
    (hbt : fc.backtrace_field.isSome = true)
    (hsf : ∃ sf, fc.selector_kind.source_field = Option.some sf ∧
      sf.backtrace_delegate = true) :
    2 ≤ (field_container name variantSpan attrs fields errs o i).1.countP
        (fun e => e.msg = backtraceConflictMsg) ∧
    (field_container name variantSpan attrs fields errs o i).1 ≠ [] := by
  rw [field_container] at hok ⊢
  rcases hps : processFields
      (FieldsState.init i
        ((attrs.foldl (processContainerAttr o) (ContainerAttrState.init o errs))).errors)
      fields with ⟨fs, oo⟩
  cases oo with
  | none =>
    simp only [hps] at hok ⊢
    have h2 := resolve_conflict_two name variantSpan o
      (attrs.foldl (processContainerAttr o) (ContainerAttrState.init o errs)) fs fc
      hok hbt hsf
    refine ⟨h2, ?_⟩
    intro hnil
    rw [hnil] at h2
    simp at h2
  | some e =>
    simp only [hps] at hok
    exact Except.noConfusion hok

/-- C8 witness: a variant whose `source` field carries a `backtrace`
attribute (delegation) next to a field named `backtrace` resolves with
both present, and the error list contains the two conflict diagnostics. -/
theorem backtrace_delegate_conflict_witness :
    2 ≤ (field_container "V" 0 []
        [⟨Option.some "source", 0, [SnafuAttribute.backtrace 2 true], 1⟩,
         ⟨Option.some "backtrace", 0, [], 3⟩]
        [] ErrorLocation.onVariant ErrorLocation.inVariant).1.countP
        (fun e => e.msg = backtraceConflictMsg) ∧
    (field_container "V" 0 []
        [⟨Option.some "source", 0, [SnafuAttribute.backtrace 2 true], 1⟩,
         ⟨Option.some "backtrace", 0, [], 3⟩]
        [] ErrorLocation.onVariant ErrorLocation.inVariant).1 ≠ [] :=
  backtrace_delegate_conflict "V" 0 []
    [⟨Option.some "source", 0, [SnafuAttribute.backtrace 2 true], 1⟩,
     ⟨Option.some "backtrace", 0, [], 3⟩]
    [] ErrorLocation.onVariant ErrorLocation.inVariant
    ⟨"V", Option.some ⟨"backtrace", 0, 3⟩,
     ContextSelectorKind.context SuffixKind.default
       (Option.some ⟨"source", Transformation.identity 0, true⟩) [],
     Option.none, "", Option.none, Option.none⟩
    rfl rfl ⟨⟨"source", Transformation.identity 0, true⟩, rfl, rfl⟩

end Snafu
